import Mathlib

/-!
# Verification of `api/all-courses.js` (course aggregator endpoint)

Shallow embedding of the Vercel serverless handler in `src/api/all-courses.js`
and its five source adapters (`getCoursera`, `getClassCentral`,
`getFreeCodeCamp`, `getGeeksForGeeks`, `getUdemy`), together with proofs of
the specified properties.

Modelling conventions:
* A JavaScript string-or-absent value (`undefined`/`null` folded together) is
  an `Option String`; JS truthiness of such a value is `truthy` below
  (present and non-empty).
* Each adapter performs exactly one `fetch` inside a `try`/`catch`.  The
  externally observable result of that fetch is an `Outcome α`: `fail` (the
  fetch or the body parse threw, i.e. network error or parse error, both of
  which land in the adapter's `catch`), `notOk` (`!r.ok`, a non-success HTTP
  status), or `ok body` (a parsed body of shape `α`).  The request URL the
  adapter builds does not influence anything observable in the model (the
  response is the model's input), so URL construction is not embedded.
* `Math.random().toString()` in the dedup key is modelled by an oracle
  `rand : Nat → String` giving the string produced by the n-th call.
-/

/-- JS truthiness of a string-or-absent value: present and non-empty. -/
def truthy : Option String → Bool
  | none => false
  | some s => s ≠ ""

/-- JS `a || b` on string-or-absent values. -/
def jsOr (a b : Option String) : Option String :=
  if truthy a then a else b

/-- Observable result of one `fetch` + body-parse inside an adapter's
`try`/`catch`: the fetch or parse threw (`fail`), the response had a
non-success status (`notOk`, i.e. `!r.ok`), or a parsed body (`ok`). -/
inductive Outcome (α : Type) where
  | fail : Outcome α
  | notOk : Outcome α
  | ok : α → Outcome α
deriving DecidableEq

/-- The common normalized record produced by every adapter
(`CourseRecord` in the spec). -/
structure CourseRecord where
  title : Option String
  description : Option String
  image : Option String
  url : Option String
  platform : String
  free : Bool
deriving DecidableEq

/-- One element of `data.elements` in the Coursera response. -/
structure CourseraItem where
  name : Option String
  title : Option String
  description : Option String
  subtitle : Option String
  photoUrl : Option String
  slug : Option String
deriving DecidableEq

/-- Parsed Coursera response body: `data.elements` may be absent. -/
structure CourseraBody where
  elements : Option (List CourseraItem)
deriving DecidableEq

/-- `getCoursera` (lines 55-75): on `!r.ok` or any throw returns `[]`,
otherwise maps `data.elements || []` into records. -/
def getCoursera : Outcome CourseraBody → List CourseRecord
  | .fail => []
  | .notOk => []
  | .ok data =>
    (data.elements.getD []).map fun c =>
      { title := jsOr c.name c.title
        description := jsOr (jsOr c.description c.subtitle) (some "")
        image := jsOr c.photoUrl none
        url := match c.slug with
          | some s => if s ≠ "" then some ("https://www.coursera.org/learn/" ++ s) else none
          | none => none
        platform := "Coursera"
        free := true }

/-- One element of the Class Central feed array. -/
structure CCItem where
  title : Option String
  description : Option String
  image : Option String
  url : Option String
deriving DecidableEq

/-- `getClassCentral` (lines 77-95): the parsed body may itself be null
(`data || []`); on `!r.ok` or any throw returns `[]`. -/
def getClassCentral : Outcome (Option (List CCItem)) → List CourseRecord
  | .fail => []
  | .notOk => []
  | .ok data =>
    (data.getD []).map fun c =>
      { title := c.title
        description := jsOr c.description (some "")
        image := jsOr c.image none
        url := jsOr c.url none
        platform := "Class Central"
        free := true }

/-- Parsed freeCodeCamp curriculum object (`data.title`, `data.description`). -/
structure FccBody where
  title : Option String
  description : Option String
deriving DecidableEq

/-- `getFreeCodeCamp` (lines 97-141): on `!r.ok` returns the single static
fallback record (title "freeCodeCamp Learn"); on any throw returns the single
static catch-record (title "freeCodeCamp: Learn"); on success returns one
record mapped from the parsed object.  Never returns the empty list. -/
def getFreeCodeCamp : Outcome FccBody → List CourseRecord
  | .notOk =>
    [{ title := some "freeCodeCamp Learn"
       description := some "freeCodeCamp's self-paced curriculum (Responsive Web Design, JavaScript Algorithms, Front End Libraries, etc.)"
       image := some "https://design-style-guide.freecodecamp.org/downloads/fcc_secondary_small.svg"
       url := some "https://www.freecodecamp.org/learn"
       platform := "freeCodeCamp"
       free := true }]
  | .ok data =>
    [{ title := jsOr data.title (some "freeCodeCamp: Learn")
       description := jsOr data.description (some "freeCodeCamp curriculum")
       image := some "https://design-style-guide.freecodecamp.org/downloads/fcc_secondary_small.svg"
       url := some "https://www.freecodecamp.org/learn"
       platform := "freeCodeCamp"
       free := true }]
  | .fail =>
    [{ title := some "freeCodeCamp: Learn"
       description := some "freeCodeCamp curriculum"
       image := some "https://design-style-guide.freecodecamp.org/downloads/fcc_secondary_small.svg"
       url := some "https://www.freecodecamp.org/learn"
       platform := "freeCodeCamp"
       free := true }]

/-- The characters after the first `>` of the list, or `none` when it
contains no `>` (so the tag regex has no match starting here). -/
def afterGt : List Char → Option (List Char)
  | [] => none
  | c :: rest => if c = '>' then some rest else afterGt rest

/-- Worker for `stripTags`, structurally recursive on a fuel argument so
that it evaluates by reduction; called with fuel = length of the list, which
each step decreases by at most as much as the list itself, so the fuel never
runs out before the list does. -/
def stripTagsGo : Nat → List Char → List Char
  | _, [] => []
  | 0, l => l
  | fuel + 1, c :: rest =>
    if c = '<' then
      match afterGt rest with
      | some restAfter => stripTagsGo fuel restAfter
      | none => c :: rest
    else
      c :: stripTagsGo fuel rest

/-- `stripTags` (lines 209-211): `s.replace(/<[^>]*>/g, "")` — every leftmost
`<...>` span (up to and including the first following `>`) is removed; a `<`
with no later `>` is left untouched, as the regex then has no match. -/
def stripTags (s : String) : String :=
  String.mk (stripTagsGo s.data.length s.data)

/-- JS `s.includes(sub)`: substring containment. -/
def jsIncludes (s sub : String) : Bool :=
  decide (sub.data <:+: s.data)

/-- JS `s.trim()`: strip leading and trailing whitespace. -/
def jsTrim (s : String) : String :=
  String.mk (((s.data.dropWhile Char.isWhitespace).reverse.dropWhile
    Char.isWhitespace).reverse)

/-- JS `s.toLowerCase()` restricted to its ASCII behaviour (the only part
the feed filter exercises): map each `A`-`Z` to `a`-`z`. -/
def jsToLower (s : String) : String :=
  String.mk (s.data.map fun c =>
    if 'A' ≤ c && c ≤ 'Z' then Char.ofNat (c.toNat + 32) else c)

/-- One `<item>` match of the feed regex in `getGeeksForGeeks` (line 151):
the three captured groups (title, link, description), still carrying markup. -/
structure RawItem where
  title : String
  link : String
  description : String
deriving DecidableEq

/-- The record `getGeeksForGeeks` pushes for one matched item (lines 154-168). -/
def gfgRecord (it : RawItem) : CourseRecord :=
  { title := some (jsTrim (stripTags it.title))
    description := some (jsTrim (stripTags it.description))
    image := none
    url := some (jsTrim (stripTags it.link))
    platform := "GeeksforGeeks"
    free := true }

/-- Does one matched item pass the query filter (lines 157-160)?  With a
truthy query, both the stripped title and the stripped description must fail
the case-insensitive substring test for the item to be skipped. -/
def gfgMatches (query : String) (it : RawItem) : Bool :=
  if query ≠ "" then
    jsIncludes (jsToLower (jsTrim (stripTags it.title))) (jsToLower query) ||
      jsIncludes (jsToLower (jsTrim (stripTags it.description))) (jsToLower query)
  else
    true

/-- The `while` loop of `getGeeksForGeeks` (lines 153-170): push each
matching item, `break` once 20 records have been pushed. -/
def gfgCollect (query : String) (acc : List CourseRecord) : List RawItem → List CourseRecord
  | [] => acc
  | it :: rest =>
    if gfgMatches query it then
      if 20 ≤ (acc ++ [gfgRecord it]).length then acc ++ [gfgRecord it]
      else gfgCollect query (acc ++ [gfgRecord it]) rest
    else
      gfgCollect query acc rest

/-- `getGeeksForGeeks` (lines 143-176): the feed text is modelled by the
sequence of regex matches it yields; on `!r.ok` or any throw returns `[]`. -/
def getGeeksForGeeks (query : String) : Outcome (List RawItem) → List CourseRecord
  | .fail => []
  | .notOk => []
  | .ok items => gfgCollect query [] items

/-- One element of `data.courses` in the Udemy response. -/
structure UdemyItem where
  title : Option String
  name : Option String
  headline : Option String
  description : Option String
  image480 : Option String
  image240 : Option String
  url : Option String
  coupon : Option String
deriving DecidableEq

/-- Parsed Udemy response body: `data.courses` may be absent. -/
structure UdemyBody where
  courses : Option (List UdemyItem)
deriving DecidableEq

/-- `getUdemy` (lines 178-206): on `!r.ok` or any throw returns `[]`,
otherwise maps `data.courses || []`; `free` is the truthiness of `c.coupon`. -/
def getUdemy : Outcome UdemyBody → List CourseRecord
  | .fail => []
  | .notOk => []
  | .ok data =>
    (data.courses.getD []).map fun c =>
      { title := jsOr c.title c.name
        description := jsOr (jsOr c.headline c.description) (some "")
        image := jsOr (jsOr c.image480 c.image240) none
        url := jsOr c.url none
        platform := "Udemy"
        free := truthy c.coupon }

/-- Environment configuration read by the handler. -/
structure Env where
  rapidApiKey : Option String
  rapidApiHost : Option String
deriving DecidableEq

/-- The external world one invocation observes: the settled fetch outcome of
each source.  The adapters themselves catch everything, so every adapter
promise fulfills and `Promise.allSettled` + the `fulfilled` filter (lines
21-27) reduce to concatenating the adapters' returned lists in order. -/
structure World where
  coursera : Outcome CourseraBody
  classCentral : Outcome (Option (List CCItem))
  fcc : Outcome FccBody
  gfg : Outcome (List RawItem)
  udemy : Outcome UdemyBody

/-- The non-random part of the dedup key of line 33
(`c.url || c.title || Math.random()`): `some` of the url when truthy, else
`some` of the title when truthy, else `none` (a fresh random key is drawn). -/
def detKey (c : CourseRecord) : Option String :=
  if truthy c.url then c.url else if truthy c.title then c.title else none

/-- The dedup loop of the handler (lines 30-38), threading the `seen` set
and the count `n` of `Math.random()` calls made so far; `rand n` is the
string the n-th call would contribute. -/
def dedupFrom (rand : Nat → String) : List CourseRecord → List String → Nat → List CourseRecord
  | [], _, _ => []
  | c :: rest, seen, n =>
    match detKey c with
    | some k =>
      if k ∈ seen then dedupFrom rand rest seen n
      else c :: dedupFrom rand rest (k :: seen) n
    | none =>
      if rand n ∈ seen then dedupFrom rand rest seen (n + 1)
      else c :: dedupFrom rand rest (rand n :: seen) (n + 1)

/-- The handler's dedup pass starting from an empty `seen` set. -/
def dedup (rand : Nat → String) (l : List CourseRecord) : List CourseRecord :=
  dedupFrom rand l [] 0

/-- The flattened `allCourses` sequence (lines 14-27): the four unconditional
adapters in order, then Udemy only when `RAPIDAPI_KEY` is truthy. -/
def combined (q : String) (env : Env) (w : World) : List CourseRecord :=
  getCoursera w.coursera ++ getClassCentral w.classCentral ++
    getFreeCodeCamp w.fcc ++ getGeeksForGeeks q w.gfg ++
    (if truthy env.rapidApiKey then getUdemy w.udemy else [])

/-- Response body: the 200 path serializes a JSON array of records, the 500
path a JSON object with a single `error` field; both are JSON values by
construction. -/
inductive RespBody where
  | arr : List CourseRecord → RespBody
  | errObj : String → RespBody
deriving DecidableEq

/-- The HTTP response the handler builds. -/
structure Response where
  status : Nat
  headers : List (String × String)
  body : RespBody
deriving DecidableEq

/-- The deduplicated list a handler invocation computes (lines 11-38):
`q` is `(req.query.q || "").toString().trim()`. -/
def handlerCourses (qParam : Option String) (env : Env) (rand : Nat → String)
    (w : World) : List CourseRecord :=
  dedup rand (combined (jsTrim ((jsOr qParam (some "")).getD "")) env w)

/-- The success path of the handler (lines 41-45): headers then
`status(200).json(deduped)`. -/
def handler (qParam : Option String) (env : Env) (rand : Nat → String)
    (w : World) : Response :=
  { status := 200
    headers := [("Cache-Control", "s-maxage=3600, stale-while-revalidate=59"),
                ("Access-Control-Allow-Origin", "*"),
                ("Content-Type", "application/json; charset=utf-8")]
    body := .arr (handlerCourses qParam env rand w) }

/-- The `catch` path of the handler (lines 46-50), as emitted when the
orchestration (e.g. the merge/dedup loop) throws before the success headers
of lines 41-43 are set: it guarantees only the open cross-origin header. -/
def handlerErrorResponse : Response :=
  { status := 500
    headers := [("Access-Control-Allow-Origin", "*")]
    body := .errObj "Failed to fetch aggregated courses" }

/-- Reference dedup keeping only the deterministic keys: a record whose
deterministic key has been claimed is dropped, a keyless record is always
kept.  `dedupFrom` agrees with it whenever the random keys are fresh
(`dedupFrom_eq_spec`). -/
def dedupSpec : List CourseRecord → List String → List CourseRecord
  | [], _ => []
  | c :: rest, seen =>
    match detKey c with
    | none => c :: dedupSpec rest seen
    | some k =>
      if k ∈ seen then dedupSpec rest seen
      else c :: dedupSpec rest (k :: seen)

/-! ## Lemmas about the dedup loop -/

/-- Every record the dedup loop emits comes from its input. -/
theorem mem_of_mem_dedupFrom (rand : Nat → String) :
    ∀ (l : List CourseRecord) (seen : List String) (n : Nat) (c : CourseRecord),
      c ∈ dedupFrom rand l seen n → c ∈ l := by
  intro l
  induction l with
  | nil => intro seen n c h; simp [dedupFrom] at h
  | cons a rest ih =>
    intro seen n c h
    rcases hk : detKey a with _ | k
    · simp only [dedupFrom, hk] at h
      by_cases hmem : rand n ∈ seen
      · rw [if_pos hmem] at h
        exact List.mem_cons_of_mem _ (ih _ _ _ h)
      · rw [if_neg hmem] at h
        rcases List.mem_cons.mp h with h | h
        · exact h ▸ List.mem_cons_self _ _
        · exact List.mem_cons_of_mem _ (ih _ _ _ h)
    · simp only [dedupFrom, hk] at h
      by_cases hmem : k ∈ seen
      · rw [if_pos hmem] at h
        exact List.mem_cons_of_mem _ (ih _ _ _ h)
      · rw [if_neg hmem] at h
        rcases List.mem_cons.mp h with h | h
        · exact h ▸ List.mem_cons_self _ _
        · exact List.mem_cons_of_mem _ (ih _ _ _ h)

/-- When the random keys are injective, never collide with any deterministic
key of the remaining input, and the two `seen` sets agree up to already-used
random keys, the dedup loop coincides with the deterministic reference. -/
theorem dedupFrom_eq_spec (rand : Nat → String)
    (hinj : ∀ m m', rand m = rand m' → m = m') :
    ∀ (l : List CourseRecord) (seenD seenS : List String) (n : Nat),
      (∀ m, ∀ c ∈ l, detKey c ≠ some (rand m)) →
      (∀ s ∈ seenD, s ∈ seenS ∨ ∃ m, m < n ∧ s = rand m) →
      (∀ s ∈ seenS, s ∈ seenD) →
      (∀ m, rand m ∉ seenS) →
      dedupFrom rand l seenD n = dedupSpec l seenS := by
  intro l
  induction l with
  | nil => intro seenD seenS n _ _ _ _; rfl
  | cons c rest ih =>
    intro seenD seenS n hA hD hS hR
    rcases hk : detKey c with _ | k
    · simp only [dedupFrom, dedupSpec, hk]
      have hnotin : rand n ∉ seenD := by
        intro hmem
        rcases hD _ hmem with h | ⟨m, hm, he⟩
        · exact hR n h
        · exact absurd (hinj _ _ he.symm) (Nat.ne_of_lt hm)
      rw [if_neg hnotin]
      congr 1
      apply ih (rand n :: seenD) seenS (n + 1)
      · intro m c' hc'; exact hA m c' (List.mem_cons_of_mem _ hc')
      · intro s hs
        rcases List.mem_cons.mp hs with h | h
        · exact Or.inr ⟨n, Nat.lt_succ_self n, h⟩
        · rcases hD _ h with h | ⟨m, hm, he⟩
          · exact Or.inl h
          · exact Or.inr ⟨m, Nat.lt_succ_of_lt hm, he⟩
      · intro s hs; exact List.mem_cons_of_mem _ (hS _ hs)
      · exact hR
    · simp only [dedupFrom, dedupSpec, hk]
      have hkr : ∀ m, k ≠ rand m := by
        intro m he
        exact hA m c (List.mem_cons_self _ _) (hk ▸ congrArg some he ▸ rfl)
      by_cases hmem : k ∈ seenD
      · have hmemS : k ∈ seenS := by
          rcases hD _ hmem with h | ⟨m, _, he⟩
          · exact h
          · exact absurd he (hkr m)
        rw [if_pos hmem, if_pos hmemS]
        exact ih seenD seenS n
          (fun m c' hc' => hA m c' (List.mem_cons_of_mem _ hc')) hD hS hR
      · have hmemS : k ∉ seenS := fun h => hmem (hS _ h)
        rw [if_neg hmem, if_neg hmemS]
        congr 1
        apply ih (k :: seenD) (k :: seenS) n
        · intro m c' hc'; exact hA m c' (List.mem_cons_of_mem _ hc')
        · intro s hs
          rcases List.mem_cons.mp hs with h | h
          · exact Or.inl (h ▸ List.mem_cons_self _ _)
          · rcases hD _ h with h | ⟨m, hm, he⟩
            · exact Or.inl (List.mem_cons_of_mem _ h)
            · exact Or.inr ⟨m, hm, he⟩
        · intro s hs
          rcases List.mem_cons.mp hs with h | h
          · exact h ▸ List.mem_cons_self _ _
          · exact List.mem_cons_of_mem _ (hS _ h)
        · intro m hm
          rcases List.mem_cons.mp hm with h | h
          · exact hkr m h.symm
          · exact hR m h

/-- The dedup pass under fresh random keys is the deterministic reference. -/
theorem dedup_eq_spec (rand : Nat → String) (l : List CourseRecord)
    (hfresh : ∀ m, ∀ c ∈ l, detKey c ≠ some (rand m))
    (hinj : ∀ m m', rand m = rand m' → m = m') :
    dedup rand l = dedupSpec l [] := by
  apply dedupFrom_eq_spec rand hinj l [] [] 0 hfresh
  · intro s hs; cases hs
  · intro s hs; cases hs
  · intro m hm; cases hm

/-- Keys of records the deterministic reference emits were not yet claimed. -/
theorem dedupSpec_detKey_not_seen :
    ∀ (l : List CourseRecord) (seen : List String),
      ∀ c ∈ dedupSpec l seen, ∀ k, detKey c = some k → k ∉ seen := by
  intro l
  induction l with
  | nil => intro seen c hc; cases hc
  | cons a rest ih =>
    intro seen c hc k hk
    rcases ha : detKey a with _ | ka
    · simp only [dedupSpec, ha] at hc
      rcases List.mem_cons.mp hc with h | h
      · subst h; rw [ha] at hk; cases hk
      · exact ih seen c h k hk
    · simp only [dedupSpec, ha] at hc
      by_cases hmem : ka ∈ seen
      · rw [if_pos hmem] at hc
        exact ih seen c hc k hk
      · rw [if_neg hmem] at hc
        rcases List.mem_cons.mp hc with h | h
        · subst h; rw [ha] at hk
          exact (Option.some_inj.mp hk) ▸ hmem
        · intro hks
          exact ih (ka :: seen) c h k hk (List.mem_cons_of_mem _ hks)

/-- No two records the deterministic reference emits share a deterministic
key. -/
theorem dedupSpec_pairwise :
    ∀ (l : List CourseRecord) (seen : List String),
      (dedupSpec l seen).Pairwise
        (fun a b => ∀ k, detKey a = some k → detKey b ≠ some k) := by
  intro l
  induction l with
  | nil => intro seen; exact List.Pairwise.nil
  | cons a rest ih =>
    intro seen
    rcases ha : detKey a with _ | ka
    · simp only [dedupSpec, ha]
      exact List.Pairwise.cons (fun b _ k hk => by rw [ha] at hk; cases hk) (ih seen)
    · simp only [dedupSpec, ha]
      by_cases hmem : ka ∈ seen
      · rw [if_pos hmem]; exact ih seen
      · rw [if_neg hmem]
        refine List.Pairwise.cons ?_ (ih (ka :: seen))
        intro b hb k hk
        rw [ha] at hk
        have hnot := dedupSpec_detKey_not_seen rest (ka :: seen) b hb
        intro hbk
        exact hnot k hbk (Option.some_inj.mp hk ▸ List.mem_cons_self _ _)

/-- At most one record per (truthy) url value survives the deterministic
reference; none survives once that url is already claimed. -/
theorem dedupSpec_countP_url (u : String) (hu : u ≠ "") :
    ∀ (l : List CourseRecord) (seen : List String),
      (dedupSpec l seen).countP (fun c => decide (c.url = some u)) ≤ 1 ∧
      (u ∈ seen → (dedupSpec l seen).countP (fun c => decide (c.url = some u)) = 0) := by
  intro l
  induction l with
  | nil => intro seen; exact ⟨by simp [dedupSpec], fun _ => by simp [dedupSpec]⟩
  | cons a rest ih =>
    intro seen
    by_cases hau : a.url = some u
    · have ha : detKey a = some u := by
        simp only [detKey, hau, truthy]
        rw [if_pos (by simp [hu])]
      simp only [dedupSpec, ha]
      by_cases hmem : u ∈ seen
      · rw [if_pos hmem]
        exact ⟨(ih seen).1, fun _ => (ih seen).2 hmem⟩
      · rw [if_neg hmem]
        have h0 : (dedupSpec rest (u :: seen)).countP
            (fun c => decide (c.url = some u)) = 0 :=
          (ih (u :: seen)).2 (List.mem_cons_self _ _)
        constructor
        · simp [List.countP_cons, hau, h0]
        · intro hus; exact absurd hus hmem
    · rcases ha : detKey a with _ | ka
      · simp only [dedupSpec, ha]
        constructor
        · simpa [List.countP_cons, hau] using (ih seen).1
        · intro hus
          simpa [List.countP_cons, hau] using (ih seen).2 hus
      · simp only [dedupSpec, ha]
        by_cases hmem : ka ∈ seen
        · rw [if_pos hmem]
          exact ⟨(ih seen).1, fun hus => (ih seen).2 hus⟩
        · rw [if_neg hmem]
          constructor
          · simpa [List.countP_cons, hau] using (ih (ka :: seen)).1
          · intro hus
            simpa [List.countP_cons, hau] using
              (ih (ka :: seen)).2 (List.mem_cons_of_mem _ hus)

/-- The first record claiming an unclaimed deterministic key survives the
deterministic reference. -/
theorem dedupSpec_first_mem (u : String) :
    ∀ (l1 : List CourseRecord) (c : CourseRecord) (l2 : List CourseRecord)
      (seen : List String),
      detKey c = some u → (∀ c' ∈ l1, detKey c' ≠ some u) → u ∉ seen →
      c ∈ dedupSpec (l1 ++ c :: l2) seen := by
  intro l1
  induction l1 with
  | nil =>
    intro c l2 seen hc _ hseen
    simp only [List.nil_append, dedupSpec, hc]
    rw [if_neg hseen]
    exact List.mem_cons_self _ _
  | cons a l1 ih =>
    intro c l2 seen hc hfirst hseen
    have hane : detKey a ≠ some u := hfirst a (List.mem_cons_self _ _)
    have hrest : ∀ c' ∈ l1, detKey c' ≠ some u :=
      fun c' hc' => hfirst c' (List.mem_cons_of_mem _ hc')
    rcases ha : detKey a with _ | ka
    · simp only [List.cons_append, dedupSpec, ha]
      exact List.mem_cons_of_mem _ (ih c l2 seen hc hrest hseen)
    · simp only [List.cons_append, dedupSpec, ha]
      by_cases hmem : ka ∈ seen
      · rw [if_pos hmem]
        exact ih c l2 seen hc hrest hseen
      · rw [if_neg hmem]
        refine List.mem_cons_of_mem _ (ih c l2 (ka :: seen) hc hrest ?_)
        intro hus
        rcases List.mem_cons.mp hus with h | h
        · exact hane (ha ▸ h ▸ rfl)
        · exact hseen h

/-- The deterministic reference keeps every keyless record: filtering both
its input and its output to keyless records gives the same list. -/
theorem dedupSpec_filter_keyless :
    ∀ (l : List CourseRecord) (seen : List String),
      (dedupSpec l seen).filter (fun c => (detKey c).isNone) =
        l.filter (fun c => (detKey c).isNone) := by
  intro l
  induction l with
  | nil => intro seen; rfl
  | cons a rest ih =>
    intro seen
    rcases ha : detKey a with _ | ka
    · simp only [dedupSpec, ha]
      simp [List.filter_cons, ha, ih seen]
    · simp only [dedupSpec, ha]
      by_cases hmem : ka ∈ seen
      · rw [if_pos hmem]
        simp [List.filter_cons, ha, ih seen]
      · rw [if_neg hmem]
        simp [List.filter_cons, ha, ih (ka :: seen)]

/-- Dropping a record whose deterministic key is already claimed leaves the
dedup loop's output unchanged, wherever the record sits in the input. -/
theorem dedupFrom_skip (rand : Nat → String) (k : String) :
    ∀ (l2 : List CourseRecord) (c2 : CourseRecord) (l3 : List CourseRecord)
      (seen : List String) (n : Nat),
      detKey c2 = some k → k ∈ seen →
      dedupFrom rand (l2 ++ c2 :: l3) seen n = dedupFrom rand (l2 ++ l3) seen n := by
  intro l2
  induction l2 with
  | nil =>
    intro c2 l3 seen n hc2 hk
    simp only [List.nil_append, dedupFrom, hc2, List.append_eq]
    rw [if_pos hk]
  | cons a l2 ih =>
    intro c2 l3 seen n hc2 hk
    rcases ha : detKey a with _ | ka
    · simp only [List.cons_append, dedupFrom, ha, List.append_eq]
      by_cases hmem : rand n ∈ seen
      · simp only [if_pos hmem]
        exact ih c2 l3 seen (n + 1) hc2 hk
      · simp only [if_neg hmem]
        rw [ih c2 l3 (rand n :: seen) (n + 1) hc2 (List.mem_cons_of_mem _ hk)]
    · simp only [List.cons_append, dedupFrom, ha, List.append_eq]
      by_cases hmem : ka ∈ seen
      · simp only [if_pos hmem]
        exact ih c2 l3 seen n hc2 hk
      · simp only [if_neg hmem]
        rw [ih c2 l3 (ka :: seen) n hc2 (List.mem_cons_of_mem _ hk)]

/-- A later record whose deterministic key repeats the key of an earlier
record is discarded by the dedup loop: removing it does not change the
output. -/
theorem dedupFrom_dup (rand : Nat → String) (k : String) :
    ∀ (l1 : List CourseRecord) (c1 : CourseRecord) (l2 : List CourseRecord)
      (c2 : CourseRecord) (l3 : List CourseRecord) (seen : List String) (n : Nat),
      detKey c1 = some k → detKey c2 = some k →
      dedupFrom rand (l1 ++ c1 :: l2 ++ c2 :: l3) seen n =
        dedupFrom rand (l1 ++ c1 :: l2 ++ l3) seen n := by
  intro l1
  induction l1 with
  | nil =>
    intro c1 l2 c2 l3 seen n hc1 hc2
    simp only [List.nil_append, List.cons_append, dedupFrom, hc1, List.append_eq]
    by_cases hmem : k ∈ seen
    · simp only [if_pos hmem]
      exact dedupFrom_skip rand k l2 c2 l3 seen n hc2 hmem
    · simp only [if_neg hmem]
      rw [dedupFrom_skip rand k l2 c2 l3 (k :: seen) n hc2 (List.mem_cons_self _ _)]
  | cons a l1 ih =>
    intro c1 l2 c2 l3 seen n hc1 hc2
    rcases ha : detKey a with _ | ka
    · simp only [List.cons_append, dedupFrom, ha, List.append_eq]
      by_cases hmem : rand n ∈ seen
      · simp only [if_pos hmem]
        exact ih c1 l2 c2 l3 seen (n + 1) hc1 hc2
      · simp only [if_neg hmem]
        rw [ih c1 l2 c2 l3 (rand n :: seen) (n + 1) hc1 hc2]
    · simp only [List.cons_append, dedupFrom, ha, List.append_eq]
      by_cases hmem : ka ∈ seen
      · simp only [if_pos hmem]
        exact ih c1 l2 c2 l3 seen n hc1 hc2
      · simp only [if_neg hmem]
        rw [ih c1 l2 c2 l3 (ka :: seen) n hc1 hc2]

/-! ## Lemmas about the GeeksforGeeks collection loop -/

/-- The collection loop never exceeds the 20-record cap (line 169) when it
starts below it. -/
theorem gfgCollect_length (query : String) :
    ∀ (items : List RawItem) (acc : List CourseRecord),
      acc.length < 20 → (gfgCollect query acc items).length ≤ 20 := by
  intro items
  induction items with
  | nil => intro acc h; simpa [gfgCollect] using Nat.le_of_lt h
  | cons it rest ih =>
    intro acc h
    simp only [gfgCollect]
    by_cases hm : gfgMatches query it
    · rw [if_pos hm]
      by_cases hlen : 20 ≤ (acc ++ [gfgRecord it]).length
      · rw [if_pos hlen]
        simp only [List.length_append, List.length_singleton] at hlen ⊢
        omega
      · rw [if_neg hlen]
        apply ih
        simp only [List.length_append, List.length_singleton] at hlen ⊢
        omega
    · rw [if_neg hm]
      exact ih acc h

/-- Every record the collection loop adds comes from a matching item. -/
theorem gfgCollect_mem (query : String) (P : CourseRecord → Prop)
    (hP : ∀ it, gfgMatches query it = true → P (gfgRecord it)) :
    ∀ (items : List RawItem) (acc : List CourseRecord),
      (∀ c ∈ acc, P c) → ∀ c ∈ gfgCollect query acc items, P c := by
  intro items
  induction items with
  | nil =>
    intro acc hacc c hc
    exact hacc c (by simpa [gfgCollect] using hc)
  | cons it rest ih =>
    intro acc hacc c hc
    simp only [gfgCollect] at hc
    by_cases hm : gfgMatches query it
    · rw [if_pos hm] at hc
      have hacc' : ∀ c' ∈ acc ++ [gfgRecord it], P c' := by
        intro c' hc'
        rcases List.mem_append.mp hc' with h | h
        · exact hacc c' h
        · rw [List.mem_singleton.mp h]
          exact hP it hm
      by_cases hlen : 20 ≤ (acc ++ [gfgRecord it]).length
      · rw [if_pos hlen] at hc
        exact hacc' c hc
      · rw [if_neg hlen] at hc
        exact ih _ hacc' c hc
    · rw [if_neg hm] at hc
      exact ih acc hacc c hc

/-! ## Platform tags of each adapter -/

/-- Every Coursera record is tagged "Coursera". -/
theorem getCoursera_platform (o : Outcome CourseraBody) :
    ∀ c ∈ getCoursera o, c.platform = "Coursera" := by
  intro c hc
  cases o with
  | fail => cases hc
  | notOk => cases hc
  | ok data =>
    simp only [getCoursera, List.mem_map] at hc
    obtain ⟨a, _, rfl⟩ := hc
    rfl

/-- Every Class Central record is tagged "Class Central". -/
theorem getClassCentral_platform (o : Outcome (Option (List CCItem))) :
    ∀ c ∈ getClassCentral o, c.platform = "Class Central" := by
  intro c hc
  cases o with
  | fail => cases hc
  | notOk => cases hc
  | ok data =>
    simp only [getClassCentral, List.mem_map] at hc
    obtain ⟨a, _, rfl⟩ := hc
    rfl

/-- Every freeCodeCamp record is tagged "freeCodeCamp". -/
theorem getFreeCodeCamp_platform (o : Outcome FccBody) :
    ∀ c ∈ getFreeCodeCamp o, c.platform = "freeCodeCamp" := by
  intro c hc
  cases o with
  | fail => rw [List.mem_singleton.mp hc]
  | notOk => rw [List.mem_singleton.mp hc]
  | ok data => rw [List.mem_singleton.mp hc]

/-- Every GeeksforGeeks record is tagged "GeeksforGeeks". -/
theorem getGeeksForGeeks_platform (q : String) (o : Outcome (List RawItem)) :
    ∀ c ∈ getGeeksForGeeks q o, c.platform = "GeeksforGeeks" := by
  intro c hc
  cases o with
  | fail => cases hc
  | notOk => cases hc
  | ok items =>
    exact gfgCollect_mem q (fun c => c.platform = "GeeksforGeeks")
      (fun it _ => rfl) items [] (fun c hc => by cases hc) c hc

/-! ## Concrete oracle for witnesses -/

/-- A concrete stand-in for the `Math.random().toString()` oracle used in
witness instantiations: the n-th call yields a string of n+1 `r`s. -/
def wrand (n : Nat) : String :=
  String.mk (List.replicate (n + 1) 'r')

/-- The underlying character list of `wrand m`. -/
theorem wrand_data (m : Nat) : (wrand m).data = 'r' :: List.replicate m 'r' := by
  simp [wrand, List.replicate_succ]

/-- The witness oracle is injective. -/
theorem wrand_inj : ∀ m m', wrand m = wrand m' → m = m' := by
  intro m m' h
  have hlen : (wrand m).data.length = (wrand m').data.length := by rw [h]
  simp only [wrand, List.length_replicate] at hlen
  omega

/-- A string whose first character is not `r` is no value of the witness
oracle. -/
theorem ne_wrand {s : String} (hs : s.data.head? ≠ some 'r') (m : Nat) :
    s ≠ wrand m := by
  intro h
  apply hs
  rw [h, wrand_data]
  rfl

/-! ## The claims -/

/-- C1, counterexample: with every one of the five sources failing (and the
Udemy source disabled), the handler answers 200 but the body is NOT the empty
JSON array — the curriculum adapter has absorbed its failure into a fallback
record. -/
theorem claim1_counterexample :
    (handler none { rapidApiKey := none, rapidApiHost := none } wrand
        { coursera := .fail, classCentral := .fail, fcc := .fail,
          gfg := .fail, udemy := .fail }).status = 200 ∧
    (handler none { rapidApiKey := none, rapidApiHost := none } wrand
        { coursera := .fail, classCentral := .fail, fcc := .fail,
          gfg := .fail, udemy := .fail }).body ≠ RespBody.arr [] := by
  constructor
  · rfl
  · decide

/-- C1 (amended): if every one of the five source adapters fails (network
error / parse error, or non-success HTTP status), the handler still responds
with status 200 — not 500 — and the JSON array body consists of exactly the
curriculum adapter's single fallback record, so it is non-empty rather than
empty.  (The merge/dedup step is total in the model, matching the claim's
proviso that it does not throw.) -/
theorem claim1_amended_all_adapters_fail (qParam : Option String) (env : Env)
    (rand : Nat → String) (w : World)
    (hc : w.coursera = .fail ∨ w.coursera = .notOk)
    (hcc : w.classCentral = .fail ∨ w.classCentral = .notOk)
    (hf : w.fcc = .fail ∨ w.fcc = .notOk)
    (hg : w.gfg = .fail ∨ w.gfg = .notOk)
    (hu : w.udemy = .fail ∨ w.udemy = .notOk) :
    (handler qParam env rand w).status = 200 ∧
    (handler qParam env rand w).body = RespBody.arr (getFreeCodeCamp w.fcc) ∧
    getFreeCodeCamp w.fcc ≠ [] := by
  have hcoursera : getCoursera w.coursera = [] := by
    rcases hc with h | h <;> rw [h] <;> rfl
  have hclass : getClassCentral w.classCentral = [] := by
    rcases hcc with h | h <;> rw [h] <;> rfl
  have hgfg : ∀ q, getGeeksForGeeks q w.gfg = [] := by
    intro q; rcases hg with h | h <;> rw [h] <;> rfl
  have hudemy : getUdemy w.udemy = [] := by
    rcases hu with h | h <;> rw [h] <;> rfl
  have hfcc : ∃ r : CourseRecord, getFreeCodeCamp w.fcc = [r] ∧
      r.url = some "https://www.freecodecamp.org/learn" := by
    rcases hf with h | h <;> rw [h] <;> exact ⟨_, rfl, rfl⟩
  obtain ⟨r, hr, hru⟩ := hfcc
  have hcomb : ∀ q, combined q env w = [r] := by
    intro q
    simp [combined, hcoursera, hclass, hgfg, hudemy, hr]
  have hkey : detKey r = some "https://www.freecodecamp.org/learn" := by
    simp [detKey, hru, truthy]
  have hded : handlerCourses qParam env rand w = [r] := by
    rw [handlerCourses, hcomb, dedup]
    simp [dedupFrom, hkey]
  refine ⟨rfl, ?_, ?_⟩
  · simp only [handler, hded, hr]
  · rw [hr]; simp

/-- C1 witness: the amended statement at a concrete all-failing world. -/
theorem claim1_witness :
    (handler none { rapidApiKey := none, rapidApiHost := none } wrand
        { coursera := .notOk, classCentral := .fail, fcc := .notOk,
          gfg := .fail, udemy := .fail }).status = 200 ∧
    (handler none { rapidApiKey := none, rapidApiHost := none } wrand
        { coursera := .notOk, classCentral := .fail, fcc := .notOk,
          gfg := .fail, udemy := .fail }).body =
      RespBody.arr (getFreeCodeCamp .notOk) ∧
    getFreeCodeCamp .notOk ≠ [] :=
  claim1_amended_all_adapters_fail none _ wrand _
    (Or.inr rfl) (Or.inl rfl) (Or.inr rfl) (Or.inl rfl) (Or.inl rfl)

/-- C3, counterexample: the 500 response emitted by the handler's `catch`
does not carry the `Cache-Control` header (the catch branch, lines 46-50,
sets only the open cross-origin header before answering). -/
theorem claim3_counterexample :
    ("Cache-Control", "s-maxage=3600, stale-while-revalidate=59") ∉
      handlerErrorResponse.headers ∧
    handlerErrorResponse.status = 500 := by
  constructor
  · decide
  · rfl

/-- C3 (amended): every response is a JSON value carrying
`Access-Control-Allow-Origin: *`; the success (200) response additionally
carries `Cache-Control: s-maxage=3600, stale-while-revalidate=59` and
`Content-Type: application/json; charset=utf-8`; the error (500) response is
guaranteed only the cross-origin header, with a JSON object body. -/
theorem claim3_amended_headers (qParam : Option String) (env : Env)
    (rand : Nat → String) (w : World) :
    (handler qParam env rand w).status = 200 ∧
    ("Access-Control-Allow-Origin", "*") ∈ (handler qParam env rand w).headers ∧
    ("Cache-Control", "s-maxage=3600, stale-while-revalidate=59") ∈
      (handler qParam env rand w).headers ∧
    ("Content-Type", "application/json; charset=utf-8") ∈
      (handler qParam env rand w).headers ∧
    (∃ cs, (handler qParam env rand w).body = RespBody.arr cs) ∧
    handlerErrorResponse.status = 500 ∧
    ("Access-Control-Allow-Origin", "*") ∈ handlerErrorResponse.headers ∧
    (∃ msg, handlerErrorResponse.body = RespBody.errObj msg) := by
  refine ⟨rfl, ?_, ?_, ?_, ⟨_, rfl⟩, rfl, ?_, ⟨_, rfl⟩⟩ <;>
    simp [handler, handlerErrorResponse]

/-- C4: for every external behaviour the curriculum adapter returns a
non-empty list, every record it returns is tagged "freeCodeCamp", and when
the source is unreachable (the fetch throws) it returns exactly the one
static record with the fixed fallback title "freeCodeCamp: Learn". -/
theorem claim4_fcc_always_nonempty (o : Outcome FccBody) :
    getFreeCodeCamp o ≠ [] ∧
    (∀ c ∈ getFreeCodeCamp o, c.platform = "freeCodeCamp") ∧
    getFreeCodeCamp .fail =
      [{ title := some "freeCodeCamp: Learn"
         description := some "freeCodeCamp curriculum"
         image := some "https://design-style-guide.freecodecamp.org/downloads/fcc_secondary_small.svg"
         url := some "https://www.freecodecamp.org/learn"
         platform := "freeCodeCamp"
         free := true }] := by
  refine ⟨?_, getFreeCodeCamp_platform o, rfl⟩
  cases o <;> simp [getFreeCodeCamp]

/-- C7: every adapter is a total function of the observed fetch outcome
(failures never escape its boundary in the model), and each failure mode
(thrown fetch/parse, or non-success status) is absorbed into the empty list —
except the curriculum adapter, which absorbs both failure modes into a
single static fallback record. -/
theorem claim7_adapters_absorb_failure (q : String) :
    getCoursera .fail = [] ∧ getCoursera .notOk = [] ∧
    getClassCentral .fail = [] ∧ getClassCentral .notOk = [] ∧
    getGeeksForGeeks q .fail = [] ∧ getGeeksForGeeks q .notOk = [] ∧
    getUdemy .fail = [] ∧ getUdemy .notOk = [] ∧
    (getFreeCodeCamp .fail).length = 1 ∧ (getFreeCodeCamp .notOk).length = 1 :=
  ⟨rfl, rfl, rfl, rfl, rfl, rfl, rfl, rfl, rfl, rfl⟩

/-- C2: under fresh random fallback keys (pairwise distinct and distinct
from every deterministic key of the input, the intended reading of
`Math.random()`), (a) no two output records share a deterministic
(non-random) key; (b) for every non-empty url value at most one record
carrying it survives; (c) the first record of the input claiming a given
deterministic key — in particular the first of the records sharing a url —
does appear in the output. -/
theorem claim2_dedup_key_invariant (rand : Nat → String) (l : List CourseRecord)
    (hfresh : ∀ m, ∀ c ∈ l, detKey c ≠ some (rand m))
    (hinj : ∀ m m', rand m = rand m' → m = m') :
    (dedup rand l).Pairwise
      (fun a b => ∀ k, detKey a = some k → detKey b ≠ some k) ∧
    (∀ u : String, u ≠ "" →
      (dedup rand l).countP (fun c => decide (c.url = some u)) ≤ 1) ∧
    (∀ u : String, ∀ l1 c l2, l = l1 ++ c :: l2 → detKey c = some u →
      (∀ c' ∈ l1, detKey c' ≠ some u) → c ∈ dedup rand l) := by
  have hs := dedup_eq_spec rand l hfresh hinj
  refine ⟨?_, ?_, ?_⟩
  · rw [hs]
    exact dedupSpec_pairwise l []
  · intro u hu
    rw [hs]
    exact (dedupSpec_countP_url u hu l []).1
  · intro u l1 c l2 hl hc hfirst
    rw [hs, hl]
    exact dedupSpec_first_mem u l1 c l2 [] hc hfirst (List.not_mem_nil u)

/-- Two records sharing the url "u1" for the C2 witness. -/
def cW1 : CourseRecord :=
  { title := some "A", description := none, image := none,
    url := some "u1", platform := "P", free := true }

/-- Second record of the C2 witness (same url, different title). -/
def cW2 : CourseRecord :=
  { title := some "B", description := none, image := none,
    url := some "u1", platform := "Q", free := true }

/-- C2 witness: the invariant at a concrete two-record input sharing a url,
with the concrete injective oracle. -/
theorem claim2_witness :
    (dedup wrand [cW1, cW2]).Pairwise
      (fun a b => ∀ k, detKey a = some k → detKey b ≠ some k) ∧
    (∀ u : String, u ≠ "" →
      (dedup wrand [cW1, cW2]).countP (fun c => decide (c.url = some u)) ≤ 1) ∧
    (∀ u : String, ∀ l1 c l2, [cW1, cW2] = l1 ++ c :: l2 → detKey c = some u →
      (∀ c' ∈ l1, detKey c' ≠ some u) → c ∈ dedup wrand [cW1, cW2]) := by
  refine claim2_dedup_key_invariant wrand [cW1, cW2] ?_ wrand_inj
  intro m c hc heq
  simp only [List.mem_cons, List.not_mem_nil, or_false] at hc
  rcases hc with rfl | rfl
  · rw [show detKey cW1 = some "u1" from rfl] at heq
    exact ne_wrand (by decide) m (Option.some.inj heq)
  · rw [show detKey cW2 = some "u1" from rfl] at heq
    exact ne_wrand (by decide) m (Option.some.inj heq)

/-- C5: the Udemy adapter's records enter the combined sequence exactly when
`RAPIDAPI_KEY` is truthy (present and non-empty); when it is not, the
handler's output contains no record tagged "Udemy". -/
theorem claim5_udemy_gated (qParam : Option String) (env : Env)
    (rand : Nat → String) (w : World) :
    (truthy env.rapidApiKey = true →
      combined (jsTrim ((jsOr qParam (some "")).getD "")) env w =
        getCoursera w.coursera ++ getClassCentral w.classCentral ++
          getFreeCodeCamp w.fcc ++
          getGeeksForGeeks (jsTrim ((jsOr qParam (some "")).getD "")) w.gfg ++
          getUdemy w.udemy) ∧
    (truthy env.rapidApiKey = false →
      combined (jsTrim ((jsOr qParam (some "")).getD "")) env w =
        getCoursera w.coursera ++ getClassCentral w.classCentral ++
          getFreeCodeCamp w.fcc ++
          getGeeksForGeeks (jsTrim ((jsOr qParam (some "")).getD "")) w.gfg ∧
      ∀ c ∈ handlerCourses qParam env rand w, c.platform ≠ "Udemy") := by
  constructor
  · intro h
    simp [combined, h]
  · intro h
    constructor
    · simp [combined, h]
    · intro c hc
      rw [handlerCourses, dedup] at hc
      have hmem := mem_of_mem_dedupFrom rand _ [] 0 c hc
      simp only [combined, h, Bool.false_eq_true, if_false, List.append_nil] at hmem
      rcases List.mem_append.mp hmem with hm | hm
      · rcases List.mem_append.mp hm with hm' | hm'
        · rcases List.mem_append.mp hm' with hm'' | hm''
          · rw [getCoursera_platform w.coursera c hm'']
            decide
          · rw [getClassCentral_platform w.classCentral c hm'']
            decide
        · rw [getFreeCodeCamp_platform w.fcc c hm']
          decide
      · rw [getGeeksForGeeks_platform _ w.gfg c hm]
        decide

/-- The Coursera item of the C5 witness world. -/
def courseraItemW : CourseraItem :=
  { name := some "N", title := none, description := none,
    subtitle := some "S", photoUrl := none, slug := some "sl" }

/-- The Udemy item of the C5 witness world. -/
def udemyItemW : UdemyItem :=
  { title := some "U", name := none, headline := none, description := none,
    image480 := none, image240 := none, url := some "uu", coupon := some "c" }

/-- A concrete world for the C5 witness. -/
def worldW : World :=
  { coursera := .ok { elements := some [courseraItemW] }
    classCentral := .fail
    fcc := .fail
    gfg := .notOk
    udemy := .ok { courses := some [udemyItemW] } }

/-- C5 witness: the gate at a concrete environment without a key, against a
world whose Udemy source would have returned a record. -/
theorem claim5_witness :
    (truthy (Env.mk none none).rapidApiKey = true →
      combined (jsTrim ((jsOr none (some "")).getD "")) (Env.mk none none) worldW =
        getCoursera worldW.coursera ++ getClassCentral worldW.classCentral ++
          getFreeCodeCamp worldW.fcc ++
          getGeeksForGeeks (jsTrim ((jsOr none (some "")).getD "")) worldW.gfg ++
          getUdemy worldW.udemy) ∧
    (truthy (Env.mk none none).rapidApiKey = false →
      combined (jsTrim ((jsOr none (some "")).getD "")) (Env.mk none none) worldW =
        getCoursera worldW.coursera ++ getClassCentral worldW.classCentral ++
          getFreeCodeCamp worldW.fcc ++
          getGeeksForGeeks (jsTrim ((jsOr none (some "")).getD "")) worldW.gfg ∧
      ∀ c ∈ handlerCourses none (Env.mk none none) wrand worldW,
        c.platform ≠ "Udemy") :=
  claim5_udemy_gated none (Env.mk none none) wrand worldW

/-- C6: with a non-empty query, every record the GeeksforGeeks adapter
returns carries the query as a case-insensitive substring of its (already
tag-stripped, trimmed) title or description, and at most 20 records are
returned. -/
theorem claim6_gfg_query_filter (q : String) (o : Outcome (List RawItem))
    (hq : q ≠ "") :
    (∀ c ∈ getGeeksForGeeks q o,
      ∃ t d, c.title = some t ∧ c.description = some d ∧
        (jsIncludes (jsToLower t) (jsToLower q) ||
          jsIncludes (jsToLower d) (jsToLower q)) = true) ∧
    (getGeeksForGeeks q o).length ≤ 20 := by
  cases o with
  | fail => exact ⟨fun c hc => absurd hc (List.not_mem_nil c), by simp [getGeeksForGeeks]⟩
  | notOk => exact ⟨fun c hc => absurd hc (List.not_mem_nil c), by simp [getGeeksForGeeks]⟩
  | ok items =>
    constructor
    · intro c hc
      refine gfgCollect_mem q
        (fun c => ∃ t d, c.title = some t ∧ c.description = some d ∧
          (jsIncludes (jsToLower t) (jsToLower q) ||
            jsIncludes (jsToLower d) (jsToLower q)) = true)
        ?_ items [] (fun c hc => by cases hc) c hc
      intro it hm
      refine ⟨jsTrim (stripTags it.title), jsTrim (stripTags it.description),
        rfl, rfl, ?_⟩
      simpa [gfgMatches, hq] using hm
    · exact gfgCollect_length q items [] (by simp)

/-- First feed item of the C6 witness: contains "Python" in its (markup
laden) title. -/
def itW1 : RawItem :=
  { title := "A <b>Python</b> intro", link := "u1", description := "d1" }

/-- Second feed item of the C6 witness: matches nowhere. -/
def itW2 : RawItem :=
  { title := "Java", link := "u2", description := "notes" }

/-- Third feed item of the C6 witness: matches in the description only. -/
def itW3 : RawItem :=
  { title := "misc", link := "u3", description := "More PYTHON stuff" }

/-- C6 witness: the filter at the spec's scenario (3 items, query "python")
— plus, by direct evaluation, the scenario's count: exactly 2 of the 3 items
match here, and with only `itW2`/`itW3`-style data exactly 1 would. -/
theorem claim6_witness :
    ((∀ c ∈ getGeeksForGeeks "python" (.ok [itW1, itW2, itW3]),
      ∃ t d, c.title = some t ∧ c.description = some d ∧
        (jsIncludes (jsToLower t) (jsToLower "python") ||
          jsIncludes (jsToLower d) (jsToLower "python")) = true) ∧
    (getGeeksForGeeks "python" (.ok [itW1, itW2, itW3])).length ≤ 20) ∧
    (getGeeksForGeeks "python" (.ok [itW2])).length = 0 ∧
    (getGeeksForGeeks "python" (.ok [itW2, itW3])).length = 1 :=
  ⟨claim6_gfg_query_filter "python" (.ok [itW1, itW2, itW3]) (by decide),
    by decide, by decide⟩

/-- C8: under fresh random fallback keys, dedup keeps every record whose
deterministic key is absent (no truthy url and no truthy title): filtering
input and output to such records gives the same list, and in particular any
record with neither url nor title survives. -/
theorem claim8_keyless_records_all_kept (rand : Nat → String)
    (l : List CourseRecord)
    (hfresh : ∀ m, ∀ c ∈ l, detKey c ≠ some (rand m))
    (hinj : ∀ m m', rand m = rand m' → m = m') :
    (dedup rand l).filter (fun c => (detKey c).isNone) =
      l.filter (fun c => (detKey c).isNone) ∧
    ∀ c ∈ l, c.url = none → c.title = none → c ∈ dedup rand l := by
  have hs := dedup_eq_spec rand l hfresh hinj
  constructor
  · rw [hs]
    exact dedupSpec_filter_keyless l []
  · intro c hc hu ht
    have hkey : ((detKey c).isNone : Bool) = true := by
      simp [detKey, hu, ht, truthy]
    have hmem : c ∈ l.filter (fun c => (detKey c).isNone) :=
      List.mem_filter.mpr ⟨hc, hkey⟩
    rw [← dedupSpec_filter_keyless l [], ← hs] at hmem
    exact (List.mem_filter.mp hmem).1

/-- First keyless record (no url, no title) for the C8 witness. -/
def cK1 : CourseRecord :=
  { title := none, description := some "x", image := none,
    url := none, platform := "P", free := true }

/-- Second keyless record for the C8 witness. -/
def cK2 : CourseRecord :=
  { title := none, description := some "y", image := none,
    url := none, platform := "Q", free := true }

/-- C8 witness: both keyless records survive at a concrete input with the
concrete injective oracle. -/
theorem claim8_witness :
    (dedup wrand [cK1, cK2]).filter (fun c => (detKey c).isNone) =
      [cK1, cK2].filter (fun c => (detKey c).isNone) ∧
    ∀ c ∈ [cK1, cK2], c.url = none → c.title = none →
      c ∈ dedup wrand [cK1, cK2] := by
  refine claim8_keyless_records_all_kept wrand [cK1, cK2] ?_ wrand_inj
  intro m c hc heq
  simp only [List.mem_cons, List.not_mem_nil, or_false] at hc
  rcases hc with rfl | rfl
  · rw [show detKey cK1 = none from rfl] at heq
    cases heq
  · rw [show detKey cK2 = none from rfl] at heq
    cases heq

/-- C9: the dedup key falls back from url to title on falsiness, not
absence: two records both carrying the empty-string url and an identical
(truthy) title are deduplicated — removing the later one does not change the
output. -/
theorem claim9_empty_url_dedups_on_title (rand : Nat → String)
    (l1 l2 l3 : List CourseRecord) (c1 c2 : CourseRecord) (t : String)
    (hu1 : c1.url = some "") (hu2 : c2.url = some "")
    (ht1 : c1.title = some t) (ht2 : c2.title = some t) (ht : t ≠ "") :
    dedup rand (l1 ++ c1 :: l2 ++ c2 :: l3) =
      dedup rand (l1 ++ c1 :: l2 ++ l3) := by
  have hk1 : detKey c1 = some t := by simp [detKey, hu1, ht1, truthy, ht]
  have hk2 : detKey c2 = some t := by simp [detKey, hu2, ht2, truthy, ht]
  exact dedupFrom_dup rand t l1 c1 l2 c2 l3 [] 0 hk1 hk2

/-- First record with an empty-string url for the C9 witness. -/
def cE1 : CourseRecord :=
  { title := some "t", description := some "a", image := none,
    url := some "", platform := "P", free := true }

/-- Second record with an empty-string url and the same title for the C9
witness. -/
def cE2 : CourseRecord :=
  { title := some "t", description := some "b", image := none,
    url := some "", platform := "Q", free := true }

/-- C9 witness: at a concrete two-record input, removing the later
empty-url/equal-title record leaves the dedup output unchanged. -/
theorem claim9_witness :
    dedup wrand [cE1, cE2] = dedup wrand [cE1] :=
  claim9_empty_url_dedups_on_title wrand [] [] [] cE1 cE2 "t"
    rfl rfl rfl rfl (by decide)

/-- C10: url-derived and title-derived dedup keys share one namespace: a
later record with a falsy url whose title equals an earlier record's (truthy)
url is discarded — removing it does not change the output. -/
theorem claim10_shared_key_namespace (rand : Nat → String)
    (l1 l2 l3 : List CourseRecord) (c1 c2 : CourseRecord) (u : String)
    (hu1 : c1.url = some u) (hu : u ≠ "")
    (hu2 : truthy c2.url = false) (ht2 : c2.title = some u) :
    dedup rand (l1 ++ c1 :: l2 ++ c2 :: l3) =
      dedup rand (l1 ++ c1 :: l2 ++ l3) := by
  have htu : truthy (some u) = true := by simp [truthy, hu]
  have hk1 : detKey c1 = some u := by simp [detKey, hu1, htu]
  have hk2 : detKey c2 = some u := by simp [detKey, hu2, ht2, htu]
  exact dedupFrom_dup rand u l1 c1 l2 c2 l3 [] 0 hk1 hk2

/-- Record whose url is "u" for the C10 witness. -/
def cN1 : CourseRecord :=
  { title := some "a", description := none, image := none,
    url := some "u", platform := "P", free := true }

/-- Record with no url whose title is "u" for the C10 witness. -/
def cN2 : CourseRecord :=
  { title := some "u", description := none, image := none,
    url := none, platform := "Q", free := true }

/-- C10 witness: at a concrete input, the later record whose title repeats
an earlier record's url is discarded. -/
theorem claim10_witness :
    dedup wrand [cN1, cN2] = dedup wrand [cN1] :=
  claim10_shared_key_namespace wrand [] [] [] cN1 cN2 "u"
    rfl (by decide) rfl rfl
